import Mathlib

/-!
Verification of the xmodem-based serial transfer stack of this repository.

The repository ships the callers of the protocol engine
(`1-shell/ttywrite/src/main.rs`, `os/bootloader/src/kmain.rs`) and the
allocator utilities (`os/kernel/src/allocator/util.rs`); the `xmodem`
crate itself (packet codec, sender and receiver state machines, retry
policy) is declared as an external crate and its code is not part of the
source tree.  Those missing parts are modelled here from the
specification's own words (sections 3, 4, 6 of the spec); every such
definition carries a doc comment starting with `Modelled from the spec:`.
Everything else is translated directly from the Rust sources.

Bytes are modelled as natural numbers (values below 256 on the wire);
machine integers of the Rust code are natural numbers with explicit
wrap-around (`% 256`, `% 2 ^ 64`) where overflow matters.
-/

namespace Xmodem

/-- Modelled from the spec: wire value of the start-of-block byte (SOH), section 6. -/
def SOH : Nat := 0x01

/-- Modelled from the spec: wire value of the end-of-transmission byte, section 6. -/
def EOT_BYTE : Nat := 0x04

/-- Modelled from the spec: wire value of the acknowledge byte, section 6. -/
def ACK : Nat := 0x06

/-- Modelled from the spec: wire value of the negative-acknowledge byte, section 6. -/
def NAK : Nat := 0x15

/-- Modelled from the spec: wire value of the cancel byte, section 6. -/
def CAN : Nat := 0x18

/-- Modelled from the spec: wire value of the CRC-mode negotiation byte, section 6. -/
def CRC_C : Nat := 0x43

/-- Modelled from the spec: the filler byte padding a short final block, section 3. -/
def FILLER : Nat := 0x1A

/-- Modelled from the spec: one protocol frame (`Packet`, section 3); the
`xmodem` crate that defines it is not in the source tree. -/
inductive Packet where
  | Data (block_number : Nat) (payload : List Nat)
  | EndOfTransmission
  | Acknowledge
  | NegativeAcknowledge
  | Cancel
  | NegotiateChecksumMode
  | NegotiateCrcMode
deriving DecidableEq

/-- Modelled from the spec: the one-byte additive checksum, the sum of the
128 payload bytes mod 256 (section 4.1). -/
def checksum (payload : List Nat) : Nat := payload.sum % 256

/-- Modelled from the spec: `PacketCodec.encode` (section 4.1 and the wire
table of section 6); control-only packets encode to a single byte, a data
packet to start byte, block number, 255-minus-block-number, the 128
payload bytes and the additive checksum. -/
def encode : Packet → List Nat
  | .Data n payload => SOH :: n :: (255 - n) :: (payload ++ [checksum payload])
  | .EndOfTransmission => [EOT_BYTE]
  | .Acknowledge => [ACK]
  | .NegativeAcknowledge => [NAK]
  | .Cancel => [CAN]
  | .NegotiateChecksumMode => [NAK]
  | .NegotiateCrcMode => [CRC_C]

/-- Modelled from the spec: a raw data block as handed to `validate_data`
(section 4.1): block number byte, complement byte, 128 payload bytes and
the received checksum byte. -/
structure RawBlock where
  block_number : Nat
  complement : Nat
  payload : List Nat
  checksum_byte : Nat
deriving DecidableEq

/-- Modelled from the spec: frame-level validation errors of the codec
(section 4.1). -/
inductive CodecError where
  | ChecksumMismatch
  | MalformedBlockNumber
  | UnrecognizedByte
deriving DecidableEq

/-- Modelled from the spec: `PacketCodec.validate_data` (section 4.1):
checks `block_number + complement_byte == 255` (else
`MalformedBlockNumber`), recomputes the additive checksum and compares it
with the received one (else `ChecksumMismatch`). -/
def validate_data (raw : RawBlock) : Except CodecError Packet :=
  if raw.block_number + raw.complement ≠ 255 then
    .error .MalformedBlockNumber
  else if checksum raw.payload ≠ raw.checksum_byte then
    .error .ChecksumMismatch
  else
    .ok (.Data raw.block_number raw.payload)

/-- Modelled from the spec: the terminal error taxonomy of section 7, plus
the sender's `Aborted(Timeout)` reason of section 4.2. -/
inductive TransferError where
  | NoSender
  | NoReceiver
  | TooManyRetries
  | CanceledByPeer
  | OutOfSequence
  | DestinationExhausted
  | UnderlyingIoError
  | Timeout
deriving DecidableEq

/-- Modelled from the spec: the receiver-side session state of section 3:
`expected` is the index of the next block, starting at 1 (its wire byte is
`expected % 256`), `write_cursor` the byte offset already filled, `buf`
the destination bytes written so far and `cap` the destination buffer's
fixed capacity. -/
structure RecvState where
  expected : Nat
  write_cursor : Nat
  buf : List Nat
  cap : Nat
deriving DecidableEq

/-- Modelled from the spec: outcome of one receiver step — continue in a
new state (optionally emitting a response byte), complete after
end-of-transmission with the reported byte count and final buffer, or
fail with a terminal error, carrying the state at the point of failure. -/
inductive RecvOutcome where
  | cont (st : RecvState) (response : Option Packet)
  | done (bytes_received : Nat) (buf : List Nat)
  | fail (e : TransferError) (st : RecvState)
deriving DecidableEq

/-- Modelled from the spec: one step of the receiver state machine in
state `AwaitingBlock(expected)` (section 4.4).  A well-formed data block
whose number matches `expected` is bounds-checked against the capacity
(a would-be overflow is the fatal `DestinationExhausted`), copied at
`write_cursor`, cursor and expected block advance, and `Acknowledge` is
sent; a block numbered `expected - 1` is a duplicate of the last accepted
block and is re-acknowledged without touching buffer or cursor; any other
number is the fatal `OutOfSequence`.  `EndOfTransmission` completes the
session (reporting `write_cursor` bytes), `Cancel` aborts with
`CanceledByPeer`, and any other control byte is discarded as noise. -/
def receiverStep (st : RecvState) : Packet → RecvOutcome
  | .Data num payload =>
      if num = st.expected % 256 then
        if st.write_cursor + 128 ≤ st.cap then
          .cont ⟨st.expected + 1, st.write_cursor + 128, st.buf ++ payload, st.cap⟩
            (some .Acknowledge)
        else
          .fail .DestinationExhausted st
      else if num = (st.expected - 1) % 256 then
        .cont st (some .Acknowledge)
      else
        .fail .OutOfSequence st
  | .EndOfTransmission => .done st.write_cursor st.buf
  | .Cancel => .fail .CanceledByPeer st
  | _ => .cont st none

/-- Modelled from the spec: driving the receiver over a lossless incoming
packet stream until completion or a terminal error (section 4.4); an
input stream exhausted before `EndOfTransmission` times out. -/
def receiveRun (st : RecvState) : List Packet → Except (TransferError × RecvState) (Nat × List Nat)
  | [] => .error (.Timeout, st)
  | p :: ps =>
      match receiverStep st p with
      | .cont st' _ => receiveRun st' ps
      | .done n buf => .ok (n, buf)
      | .fail e stf => .error (e, stf)

/-- Modelled from the spec: padding of a short final chunk to 128 bytes
with the filler byte (section 3). -/
def pad128 (l : List Nat) : List Nat := l ++ List.replicate (128 - l.length) FILLER

/-- Modelled from the spec: splitting the source buffer into consecutive
128-byte chunks, the final one padded (sections 3 and 4.3).  The fuel
argument bounds the recursion; it is instantiated with the source length. -/
def chunkBlocksAux : Nat → List Nat → List (List Nat)
  | _, [] => []
  | 0, _ :: _ => []
  | fuel + 1, b :: rest => pad128 ((b :: rest).take 128) :: chunkBlocksAux fuel ((b :: rest).drop 128)

/-- Modelled from the spec: the list of 128-byte blocks of a source buffer. -/
def chunkBlocks (B : List Nat) : List (List Nat) := chunkBlocksAux B.length B

/-- Modelled from the spec: the number of data blocks of a source of the
given length, `⌈len / 128⌉`. -/
def numBlocks (len : Nat) : Nat := (len + 127) / 128

/-- Modelled from the spec: the sender's data packets for a list of
blocks, numbered consecutively from `k` with wire numbers `k % 256`
(block numbers start at 1 and wrap modulo 256, section 3). -/
def dataPackets : Nat → List (List Nat) → List Packet
  | _, [] => []
  | k, b :: bs => .Data (k % 256) b :: dataPackets (k + 1) bs

/-- Modelled from the spec: the packet stream of a lossless transmission
of source `B` — its data blocks numbered from 1 followed by
`EndOfTransmission` (section 4.3). -/
def transmitPackets (B : List Nat) : List Packet :=
  dataPackets 1 (chunkBlocks B) ++ [.EndOfTransmission]

/-- Modelled from the spec: `transmit` over a lossless channel, returning
the wire packet stream and the reported `bytes_sent`.  Per section 4.3 the
sender's cursor advances by up to 128 bytes (the true bytes of the
acknowledged chunk) on each acknowledgement, so on completion it reports
the total source length, filler excluded. -/
def transmit (B : List Nat) : List Packet × Nat := (transmitPackets B, B.length)

/-- Modelled from the spec: `RetryPolicy` configuration, section 4.2. -/
structure RetryPolicy where
  max_retries_per_block : Nat
  byte_timeout : Nat
  initial_handshake_timeout : Nat
  max_handshake_attempts : Nat
deriving DecidableEq

/-- Modelled from the spec: the default policy of section 4.2 —
`max_retries_per_block = 10` (industry-standard default), a 1-second byte
timeout and a 10-second initial handshake timeout. -/
def defaultPolicy : RetryPolicy := ⟨10, 1, 10, 10⟩

/-- Modelled from the spec: the decision returned by the retry policy. -/
inductive RetryDecision where
  | Retry
  | GiveUp
deriving DecidableEq

/-- Modelled from the spec: `on_timeout(attempt_count)` returns `GiveUp`
once `attempt_count >= max_retries_per_block` (section 4.2). -/
def on_timeout (p : RetryPolicy) (attempt_count : Nat) : RetryDecision :=
  if p.max_retries_per_block ≤ attempt_count then .GiveUp else .Retry

/-- Modelled from the spec: `on_checksum_failure` follows the same counter
and ceiling as `on_timeout`; both are folded into one retry budget per
block (section 4.2). -/
def on_checksum_failure (p : RetryPolicy) (attempt_count : Nat) : RetryDecision :=
  on_timeout p attempt_count

/-- Modelled from the spec: the sender while waiting for the
acknowledgement of a block (or of the end-of-transmission marker),
section 4.3: `AwaitingAck` carries the block number and the attempts used
so far on this block. -/
inductive SenderAck where
  | AwaitingAck (block : Nat) (attempts : Nat)
  | Aborted (e : TransferError)
deriving DecidableEq

/-- Modelled from the spec: the events the sender can observe while
awaiting an acknowledgement; `Failure` is a `NegativeAcknowledge` or a
timeout — both consume the same shared per-block retry budget. -/
inductive AckEvent where
  | Ack
  | Failure
deriving DecidableEq

/-- Modelled from the spec: one transition of the sender's
acknowledgement wait (section 4.3).  An acknowledgement moves on to the
next block with the attempt counter reset to 0; a failure consumes one
attempt and consults the retry policy with the number of attempts made so
far, aborting with `TooManyRetries` on `GiveUp`. -/
def senderAckStep (p : RetryPolicy) : SenderAck → AckEvent → SenderAck
  | .AwaitingAck n _, .Ack => .AwaitingAck (n + 1) 0
  | .AwaitingAck n a, .Failure =>
      match on_timeout p (a + 1) with
      | .GiveUp => .Aborted .TooManyRetries
      | .Retry => .AwaitingAck n (a + 1)
  | .Aborted e, _ => .Aborted e

/-- Modelled from the spec: the sender observing `k` consecutive failures
(negative acknowledgements or timeouts) on the same block. -/
def senderFails (p : RetryPolicy) (s : SenderAck) : Nat → SenderAck
  | 0 => s
  | k + 1 => senderFails p (senderAckStep p s .Failure) k

end Xmodem

namespace Boot

/-- The `ErrorKind` values of the repository's `std::io` distinguished by
the bootloader's match (`os/bootloader/src/kmain.rs`); the enum itself
lives in the `std::io::error` module, outside the source tree, so the
remaining standard kinds are represented by the variants the tree
mentions plus `Other`. -/
inductive ErrorKind where
  | TimedOut
  | InvalidData
  | UnexpectedEof
  | Interrupted
  | WriteZero
  | BrokenPipe
  | Other
deriving DecidableEq

/-- What one iteration of the bootloader's boot loop does next: jump to a
loaded image (`jump_to`, which never returns), silently retry with a
fresh session (the loop's next iteration), or stop the loop.  The third
action exists only to state the specification's claim; `bootStep` never
produces it. -/
inductive BootAction where
  | jump (addr : Nat)
  | retry
  | stop
deriving DecidableEq

/-- Start address of the binary to load, from `kmain.rs`. -/
def BINARY_START_ADDR : Nat := 0x80000

/-- Start address of the bootloader, from `kmain.rs`. -/
def BOOTLOADER_START_ADDR : Nat := 0x4000000

/-- Free space between the bootloader and the loaded binary's start
address, from `kmain.rs`. -/
def MAX_BINARY_SIZE : Nat := BOOTLOADER_START_ADDR - BINARY_START_ADDR

/-- One iteration of `kmain`'s boot loop, translated from
`os/bootloader/src/kmain.rs`: on `Ok` it jumps to `BINARY_START`; on
`Err` it matches the kind — `TimedOut => continue`, `InvalidData =>
continue`, and the wildcard arm `_ => {}` does nothing, after which
control reaches the end of the loop body and the loop continues as well. -/
def bootStep : Except ErrorKind Nat → BootAction
  | .ok _ => .jump BINARY_START_ADDR
  | .error e =>
      match e with
      | .TimedOut => .retry
      | .InvalidData => .retry
      | _ => .retry

end Boot

namespace Ttywrite

/-- The `Progress` notification values passed to the callback by the
`xmodem` crate's `transmit_with_progress`; the crate is outside the
source tree, and `progress_fn` ignores its argument, so only the shape
matters. -/
inductive Progress where
  | Waiting
  | Started
  | Packet (block : Nat)
deriving DecidableEq

/-- The process-wide `static mut` state of `progress_fn` in
`1-shell/ttywrite/src/main.rs`: `LAST_TIME: Option<Instant>` and
`BYTES_SENT: u64`.  Instants are modelled as natural timestamps. -/
structure ProgressState where
  LAST_TIME : Option Nat
  BYTES_SENT : Nat
deriving DecidableEq

/-- `progress_fn` from `1-shell/ttywrite/src/main.rs`, with its two
`static mut` variables made explicit state and the current instant an
explicit input.  It adds 128 to `BYTES_SENT` unconditionally, then: if
`LAST_TIME` was set it prints a progress line whose byte count is the
updated `BYTES_SENT` (returned here as the report; the KiB/s rate also
printed depends on wall-clock time and floating point and is outside the
embedding) and stores the current instant; on the first call it prints
nothing and only stores the instant. -/
def progress_fn (st : ProgressState) (now : Nat) (_progress : Progress) :
    ProgressState × Option Nat :=
  let bytes := st.BYTES_SENT + 128
  match st.LAST_TIME with
  | some _ => (⟨some now, bytes⟩, some bytes)
  | none => (⟨some now, bytes⟩, none)

/-- Iterating `progress_fn` from a given state over a list of invocation
timestamps (one entry per callback invocation, i.e. per acknowledged
block); the notification argument is irrelevant to the function. -/
def progressIter (st : ProgressState) : List Nat → ProgressState
  | [] => st
  | t :: ts => progressIter (progress_fn st t .Started).1 ts

end Ttywrite

namespace AllocUtil

/-- Bit width limit of `usize` on the 64-bit target. -/
def USIZE : Nat := 2 ^ 64

/-- Rust's `usize::is_power_of_two`: true exactly for the values `2 ^ k`
representable in 64 bits, from `core` (`count_ones() == 1`). -/
def is_power_of_two (n : Nat) : Bool := (List.range 64).any fun k => n = 2 ^ k

/-- 64-bit bitwise complement, total on values below `2 ^ 64`. -/
def usizeNot (x : Nat) : Nat := (USIZE - 1) - x

/-- `align_down` from `os/kernel/src/allocator/util.rs`: panics (`none`)
unless `align` is a power of two, else returns `addr & !(align - 1)`. -/
def align_down (addr align : Nat) : Option Nat :=
  if is_power_of_two align then some (addr &&& usizeNot (align - 1)) else none

/-- `align_up` from `os/kernel/src/allocator/util.rs`: panics (`none`)
unless `align` is a power of two, else returns
`addr.saturating_add(align - 1) & !(align - 1)`; the saturating addition
clamps at `usize::MAX = 2 ^ 64 - 1`. -/
def align_up (addr align : Nat) : Option Nat :=
  if is_power_of_two align then
    some (min (addr + (align - 1)) (USIZE - 1) &&& usizeNot (align - 1))
  else none

end AllocUtil

/-- C6: `encode` maps each control-only packet to exactly its one wire byte
of section 6, and a data packet to the sequence start byte, block number,
255-minus-block-number, payload, additive checksum — 132 bytes when the
payload has the invariant length 128; `validate_data` accepts a raw block
iff the recomputed checksum matches and block number plus complement byte
equal 255, failing with `ChecksumMismatch` respectively
`MalformedBlockNumber` for the check that is violated. -/
theorem Xmodem.codec_encode_validate :
    Xmodem.encode .Acknowledge = [0x06]
    ∧ Xmodem.encode .NegativeAcknowledge = [0x15]
    ∧ Xmodem.encode .Cancel = [0x18]
    ∧ Xmodem.encode .EndOfTransmission = [0x04]
    ∧ Xmodem.encode .NegotiateCrcMode = [0x43]
    ∧ Xmodem.encode .NegotiateChecksumMode = [0x15]
    ∧ (∀ n payload, Xmodem.encode (.Data n payload)
        = 0x01 :: n :: (255 - n) :: (payload ++ [payload.sum % 256]))
    ∧ (∀ n payload, payload.length = 128 →
        (Xmodem.encode (.Data n payload)).length = 132)
    ∧ (∀ raw : Xmodem.RawBlock,
        Xmodem.validate_data raw = .ok (.Data raw.block_number raw.payload)
          ↔ (Xmodem.checksum raw.payload = raw.checksum_byte
              ∧ raw.block_number + raw.complement = 255))
    ∧ (∀ raw : Xmodem.RawBlock, raw.block_number + raw.complement ≠ 255 →
        Xmodem.validate_data raw = .error .MalformedBlockNumber)
    ∧ (∀ raw : Xmodem.RawBlock, raw.block_number + raw.complement = 255 →
        Xmodem.checksum raw.payload ≠ raw.checksum_byte →
        Xmodem.validate_data raw = .error .ChecksumMismatch) := by
  refine ⟨rfl, rfl, rfl, rfl, rfl, rfl, ?_, ?_, ?_, ?_, ?_⟩
  · intro n payload; rfl
  · intro n payload h
    simp [Xmodem.encode, h]
  · intro raw
    constructor
    · intro h
      by_cases hb : raw.block_number + raw.complement = 255
      · by_cases hc : Xmodem.checksum raw.payload = raw.checksum_byte
        · exact ⟨hc, hb⟩
        · simp [Xmodem.validate_data, hb, hc] at h
      · simp [Xmodem.validate_data, hb] at h
    · rintro ⟨hc, hb⟩
      simp [Xmodem.validate_data, hb, hc]
  · intro raw hb
    simp [Xmodem.validate_data, hb]
  · intro raw hb hc
    simp [Xmodem.validate_data, hb, hc]

/-- Witness for C6: a concrete data block of payload length 128 encodes to
132 bytes, and a concrete malformed raw block is rejected with
`MalformedBlockNumber`. -/
theorem Xmodem.codec_encode_validate_witness :
    (Xmodem.encode (.Data 3 (List.replicate 128 7))).length = 132
    ∧ Xmodem.validate_data ⟨3, 0, List.replicate 128 7, 0⟩
        = .error .MalformedBlockNumber :=
  ⟨Xmodem.codec_encode_validate.2.2.2.2.2.2.2.1 3 (List.replicate 128 7)
      (by simp),
   Xmodem.codec_encode_validate.2.2.2.2.2.2.2.2.2.1 ⟨3, 0, List.replicate 128 7, 0⟩
      (by decide)⟩

theorem Xmodem.chunkBlocksAux_congr :
    ∀ (f₁ f₂ : Nat) (l : List Nat), l.length ≤ f₁ → l.length ≤ f₂ →
      Xmodem.chunkBlocksAux f₁ l = Xmodem.chunkBlocksAux f₂ l := by
  intro f₁
  induction f₁ with
  | zero =>
      intro f₂ l h1 _
      have hl : l = [] := List.eq_nil_of_length_eq_zero (Nat.le_zero.mp h1)
      subst hl
      cases f₂ <;> rfl
  | succ g ih =>
      intro f₂ l h1 h2
      cases l with
      | nil => cases f₂ <;> rfl
      | cons b rest =>
          cases f₂ with
          | zero => simp at h2
          | succ g₂ =>
              simp only [Xmodem.chunkBlocksAux]
              congr 1
              apply ih
              · simp only [List.length_drop, List.length_cons] at *
                omega
              · simp only [List.length_drop, List.length_cons] at *
                omega

theorem Xmodem.chunkBlocks_cons (b : Nat) (rest : List Nat) :
    Xmodem.chunkBlocks (b :: rest)
      = Xmodem.pad128 ((b :: rest).take 128) :: Xmodem.chunkBlocks ((b :: rest).drop 128) := by
  show Xmodem.chunkBlocksAux (rest.length + 1) (b :: rest) = _
  simp only [Xmodem.chunkBlocksAux]
  congr 1
  exact Xmodem.chunkBlocksAux_congr _ _ _
    (by simp only [List.length_drop, List.length_cons]; omega)
    (le_refl _)

theorem Xmodem.chunkBlocksAux_mem_length :
    ∀ (fuel : Nat) (B : List Nat), ∀ b ∈ Xmodem.chunkBlocksAux fuel B, b.length = 128 := by
  intro fuel
  induction fuel with
  | zero =>
      intro B b hb
      cases B <;> simp [Xmodem.chunkBlocksAux] at hb
  | succ g ih =>
      intro B b hb
      cases B with
      | nil => simp [Xmodem.chunkBlocksAux] at hb
      | cons x rest =>
          simp only [Xmodem.chunkBlocksAux, List.mem_cons] at hb
          rcases hb with h | h
          · subst h
            simp only [Xmodem.pad128, List.length_append, List.length_replicate,
              List.length_take, List.length_cons]
            omega
          · exact ih _ _ h

theorem Xmodem.chunkBlocks_mem_length (B : List Nat) :
    ∀ b ∈ Xmodem.chunkBlocks B, b.length = 128 :=
  Xmodem.chunkBlocksAux_mem_length _ _

theorem Xmodem.chunkBlocksAux_length :
    ∀ (fuel : Nat) (B : List Nat), B.length ≤ fuel →
      (Xmodem.chunkBlocksAux fuel B).length = Xmodem.numBlocks B.length := by
  intro fuel
  induction fuel with
  | zero =>
      intro B h
      have hl : B = [] := List.eq_nil_of_length_eq_zero (Nat.le_zero.mp h)
      subst hl
      simp [Xmodem.chunkBlocksAux, Xmodem.numBlocks]
  | succ g ih =>
      intro B h
      cases B with
      | nil => simp [Xmodem.chunkBlocksAux, Xmodem.numBlocks]
      | cons x rest =>
          simp only [Xmodem.chunkBlocksAux, List.length_cons]
          rw [ih _ (by simp only [List.length_drop, List.length_cons] at *; omega)]
          simp only [Xmodem.numBlocks, List.length_drop, List.length_cons]
          omega

theorem Xmodem.chunkBlocks_length (B : List Nat) :
    (Xmodem.chunkBlocks B).length = Xmodem.numBlocks B.length :=
  Xmodem.chunkBlocksAux_length _ _ (le_refl _)

theorem Xmodem.chunkBlocksAux_flatten :
    ∀ (fuel : Nat) (B : List Nat), B.length ≤ fuel →
      (Xmodem.chunkBlocksAux fuel B).flatten
        = B ++ List.replicate (128 * Xmodem.numBlocks B.length - B.length) Xmodem.FILLER := by
  intro fuel
  induction fuel with
  | zero =>
      intro B h
      have hl : B = [] := List.eq_nil_of_length_eq_zero (Nat.le_zero.mp h)
      subst hl
      simp [Xmodem.chunkBlocksAux, Xmodem.numBlocks]
  | succ g ih =>
      intro B h
      cases B with
      | nil => simp [Xmodem.chunkBlocksAux, Xmodem.numBlocks]
      | cons x rest =>
          simp only [Xmodem.chunkBlocksAux, List.flatten_cons]
          rw [ih _ (by simp only [List.length_drop, List.length_cons] at *; omega)]
          by_cases hle : (x :: rest).length ≤ 128
          · rw [List.drop_eq_nil_of_le hle, List.take_of_length_le hle]
            have hz : 128 * Xmodem.numBlocks (List.length ([] : List Nat))
                - List.length ([] : List Nat) = 0 := by
              norm_num [Xmodem.numBlocks]
            rw [hz]
            have hc : (128 : Nat) - (x :: rest).length
                = 128 * Xmodem.numBlocks (x :: rest).length - (x :: rest).length := by
              simp only [Xmodem.numBlocks, List.length_cons] at *
              omega
            simp only [Xmodem.pad128, hc, List.replicate_zero, List.append_nil,
              List.nil_append]
          · have ht : ((x :: rest).take 128).length = 128 := by
              simp only [List.length_take, List.length_cons] at *
              omega
            have hpad : Xmodem.pad128 ((x :: rest).take 128) = (x :: rest).take 128 := by
              simp only [Xmodem.pad128, ht, Nat.sub_self, List.replicate_zero,
                List.append_nil]
            rw [hpad, ← List.append_assoc, List.take_append_drop]
            congr 2
            simp only [Xmodem.numBlocks, List.length_drop, List.length_cons] at *
            omega

theorem Xmodem.chunkBlocks_flatten (B : List Nat) :
    (Xmodem.chunkBlocks B).flatten
      = B ++ List.replicate (128 * Xmodem.numBlocks B.length - B.length) Xmodem.FILLER :=
  Xmodem.chunkBlocksAux_flatten _ _ (le_refl _)

theorem Xmodem.dataPackets_append (k : Nat) (xs ys : List (List Nat)) :
    Xmodem.dataPackets k (xs ++ ys)
      = Xmodem.dataPackets k xs ++ Xmodem.dataPackets (k + xs.length) ys := by
  induction xs generalizing k with
  | nil => simp [Xmodem.dataPackets]
  | cons b bs ih =>
      simp only [List.cons_append, Xmodem.dataPackets, List.length_cons, List.append_eq]
      rw [ih]
      have hk : k + 1 + bs.length = k + (bs.length + 1) := by omega
      rw [hk]

theorem Xmodem.receiveRun_cons_cont (st st' : Xmodem.RecvState) (p : Xmodem.Packet)
    (ps : List Xmodem.Packet) (r : Option Xmodem.Packet)
    (h : Xmodem.receiverStep st p = .cont st' r) :
    Xmodem.receiveRun st (p :: ps) = Xmodem.receiveRun st' ps := by
  simp [Xmodem.receiveRun, h]

theorem Xmodem.receiveRun_cons_done (st : Xmodem.RecvState) (p : Xmodem.Packet)
    (ps : List Xmodem.Packet) (n : Nat) (buf : List Nat)
    (h : Xmodem.receiverStep st p = .done n buf) :
    Xmodem.receiveRun st (p :: ps) = .ok (n, buf) := by
  simp [Xmodem.receiveRun, h]

theorem Xmodem.receiveRun_cons_fail (st stf : Xmodem.RecvState) (p : Xmodem.Packet)
    (ps : List Xmodem.Packet) (e : Xmodem.TransferError)
    (h : Xmodem.receiverStep st p = .fail e stf) :
    Xmodem.receiveRun st (p :: ps) = .error (e, stf) := by
  simp [Xmodem.receiveRun, h]

theorem Xmodem.receiveRun_accept :
    ∀ (bs : List (List Nat)) (st : Xmodem.RecvState) (rest : List Xmodem.Packet),
      st.write_cursor + 128 * bs.length ≤ st.cap →
      Xmodem.receiveRun st (Xmodem.dataPackets st.expected bs ++ rest)
        = Xmodem.receiveRun
            ⟨st.expected + bs.length, st.write_cursor + 128 * bs.length,
              st.buf ++ bs.flatten, st.cap⟩ rest := by
  intro bs
  induction bs with
  | nil =>
      intro st rest _
      simp [Xmodem.dataPackets]
  | cons b bs ih =>
      intro st rest h
      have hfit : st.write_cursor + 128 ≤ st.cap := by
        simp only [List.length_cons] at h
        omega
      have hstep : Xmodem.receiverStep st (.Data (st.expected % 256) b)
          = .cont ⟨st.expected + 1, st.write_cursor + 128, st.buf ++ b, st.cap⟩
              (some .Acknowledge) := by
        simp [Xmodem.receiverStep, hfit]
      simp only [Xmodem.dataPackets, List.cons_append]
      rw [Xmodem.receiveRun_cons_cont _ _ _ _ _ hstep]
      have ih' := ih ⟨st.expected + 1, st.write_cursor + 128, st.buf ++ b, st.cap⟩ rest
        (by simp only [List.length_cons] at h ⊢; omega)
      simp only at ih'
      rw [ih']
      simp only [List.length_cons, List.flatten_cons]
      have h1 : st.expected + 1 + bs.length = st.expected + (bs.length + 1) := by omega
      have h2 : st.write_cursor + 128 + 128 * bs.length
          = st.write_cursor + 128 * (bs.length + 1) := by omega
      rw [h1, h2, List.append_assoc]

theorem Xmodem.flatten_take_of_length (bs : List (List Nat)) :
    ∀ (j : Nat), (∀ b ∈ bs, b.length = 128) →
      (bs.take j).flatten = bs.flatten.take (128 * j) := by
  induction bs with
  | nil => intro j _; simp
  | cons b bs ih =>
      intro j h
      cases j with
      | zero => simp
      | succ j' =>
          simp only [List.take_succ_cons, List.flatten_cons]
          rw [ih j' fun x hx => h x (List.mem_cons_of_mem _ hx)]
          have hb : b.length = 128 := h b (List.mem_cons_self _ _)
          rw [List.take_append_eq_append_take,
            List.take_of_length_le (by omega : b.length ≤ 128 * (j' + 1))]
          have hcnt : 128 * (j' + 1) - b.length = 128 * j' := by omega
          rw [hcnt]

theorem Xmodem.receiverStep_cont_inv :
    ∀ (st st' : Xmodem.RecvState) (p : Xmodem.Packet) (r : Option Xmodem.Packet),
      Xmodem.receiverStep st p = .cont st' r →
      st.write_cursor ≤ st.cap →
      st'.cap = st.cap ∧ st'.write_cursor ≤ st.cap := by
  intro st st' p r h hc
  cases p with
  | Data num payload =>
      simp only [Xmodem.receiverStep] at h
      by_cases h1 : num = st.expected % 256
      · by_cases h2 : st.write_cursor + 128 ≤ st.cap
        · rw [if_pos h1, if_pos h2] at h
          injection h with hst _
          subst hst
          exact ⟨rfl, h2⟩
        · rw [if_pos h1, if_neg h2] at h
          cases h
      · by_cases h3 : num = (st.expected - 1) % 256
        · rw [if_neg h1, if_pos h3] at h
          injection h with hst _
          subst hst
          exact ⟨rfl, hc⟩
        · rw [if_neg h1, if_neg h3] at h
          cases h
  | EndOfTransmission => simp [Xmodem.receiverStep] at h
  | Cancel => simp [Xmodem.receiverStep] at h
  | Acknowledge =>
      simp only [Xmodem.receiverStep] at h
      cases h
      exact ⟨rfl, hc⟩
  | NegativeAcknowledge =>
      simp only [Xmodem.receiverStep] at h
      cases h
      exact ⟨rfl, hc⟩
  | NegotiateChecksumMode =>
      simp only [Xmodem.receiverStep] at h
      cases h
      exact ⟨rfl, hc⟩
  | NegotiateCrcMode =>
      simp only [Xmodem.receiverStep] at h
      cases h
      exact ⟨rfl, hc⟩

theorem Xmodem.receiverStep_done_inv :
    ∀ (st : Xmodem.RecvState) (p : Xmodem.Packet) (m : Nat) (b : List Nat),
      Xmodem.receiverStep st p = .done m b → m = st.write_cursor := by
  intro st p m b h
  cases p with
  | Data num payload =>
      simp only [Xmodem.receiverStep] at h
      split_ifs at h
  | EndOfTransmission =>
      simp only [Xmodem.receiverStep] at h
      cases h
      rfl
  | Cancel => simp [Xmodem.receiverStep] at h
  | Acknowledge => simp [Xmodem.receiverStep] at h
  | NegativeAcknowledge => simp [Xmodem.receiverStep] at h
  | NegotiateChecksumMode => simp [Xmodem.receiverStep] at h
  | NegotiateCrcMode => simp [Xmodem.receiverStep] at h

theorem Xmodem.receiveRun_ok_le :
    ∀ (ps : List Xmodem.Packet) (st : Xmodem.RecvState) (n : Nat) (buf : List Nat),
      st.write_cursor ≤ st.cap →
      Xmodem.receiveRun st ps = .ok (n, buf) → n ≤ st.cap := by
  intro ps
  induction ps with
  | nil =>
      intro st n buf _ h
      simp [Xmodem.receiveRun] at h
  | cons p ps ih =>
      intro st n buf hc h
      cases hstep : Xmodem.receiverStep st p with
      | cont st' r =>
          rw [Xmodem.receiveRun_cons_cont _ _ _ _ _ hstep] at h
          obtain ⟨hcap, hcur⟩ := Xmodem.receiverStep_cont_inv _ _ _ _ hstep hc
          have hn := ih st' n buf (by rw [hcap]; exact hcur) h
          rwa [hcap] at hn
      | done m b =>
          rw [Xmodem.receiveRun_cons_done _ _ _ _ _ hstep] at h
          have hm := Xmodem.receiverStep_done_inv _ _ _ _ hstep
          cases h
          omega
      | fail e stf =>
          rw [Xmodem.receiveRun_cons_fail _ _ _ _ _ hstep] at h
          simp at h

theorem Xmodem.senderFails_awaiting (p : Xmodem.RetryPolicy) (n : Nat) :
    ∀ (k a : Nat), a + k < p.max_retries_per_block →
      Xmodem.senderFails p (.AwaitingAck n a) k = .AwaitingAck n (a + k) := by
  intro k
  induction k with
  | zero => intro a _; rfl
  | succ k' ih =>
      intro a h
      have hstep : Xmodem.senderAckStep p (.AwaitingAck n a) .Failure
          = .AwaitingAck n (a + 1) := by
        simp only [Xmodem.senderAckStep, Xmodem.on_timeout]
        rw [if_neg (by omega)]
      show Xmodem.senderFails p (Xmodem.senderAckStep p (.AwaitingAck n a) .Failure) k'
          = _
      rw [hstep, ih (a + 1) (by omega)]
      congr 1
      omega

theorem Xmodem.senderFails_add (p : Xmodem.RetryPolicy) :
    ∀ (j k : Nat) (s : Xmodem.SenderAck),
      Xmodem.senderFails p s (j + k) = Xmodem.senderFails p (Xmodem.senderFails p s j) k := by
  intro j
  induction j with
  | zero => intro k s; rw [Nat.zero_add]; rfl
  | succ j' ih =>
      intro k s
      have hjk : j' + 1 + k = (j' + k) + 1 := by omega
      rw [hjk]
      show Xmodem.senderFails p (Xmodem.senderAckStep p s .Failure) (j' + k) = _
      rw [ih]
      rfl

/-- C1 counterexample: for `B = [7]` (length 1, within a capacity of 128)
the lossless round trip stores `B` as the prefix of the destination, and
`transmit` reports 1 byte, but `receive` reports 128 bytes — the whole
padded block, trailing filler included — so the claimed
`bytes_sent == bytes_received == len(B)` is false. -/
theorem Xmodem.roundtrip_count_counterexample :
    List.length [(7 : Nat)] ≤ 128
    ∧ Xmodem.receiveRun ⟨1, 0, [], 128⟩ (Xmodem.transmit [7]).1
        = .ok (128, 7 :: List.replicate 127 Xmodem.FILLER)
    ∧ (Xmodem.transmit [7]).2 = 1
    ∧ (128 : Nat) ≠ List.length [(7 : Nat)] :=
  ⟨by decide, rfl, rfl, by decide⟩

/-- C1 (amended): for any byte sequence `B` whose padded blocks fit the
destination capacity (`128 * ⌈len(B)/128⌉ ≤ capacity`), a lossless
transmission into an empty destination leaves the destination's first
`len(B)` bytes equal to `B` and `transmit` reports exactly `len(B)` bytes
(filler never counted), while `receive` reports `128 * ⌈len(B)/128⌉`
bytes — the block count times 128, which includes the trailing filler of
a padded final block and equals `len(B)` only when `len(B)` is a multiple
of 128.  The receiver tracks only `write_cursor`; the true source length
is out-of-band (spec section 3), so it cannot report `len(B)`. -/
theorem Xmodem.lossless_roundtrip (B : List Nat) (cap : Nat)
    (hcap : 128 * Xmodem.numBlocks B.length ≤ cap) :
    (Xmodem.transmit B).2 = B.length
    ∧ Xmodem.receiveRun ⟨1, 0, [], cap⟩ (Xmodem.transmit B).1
        = .ok (128 * Xmodem.numBlocks B.length,
            B ++ List.replicate (128 * Xmodem.numBlocks B.length - B.length) Xmodem.FILLER)
    ∧ (B ++ List.replicate
          (128 * Xmodem.numBlocks B.length - B.length) Xmodem.FILLER).take B.length
        = B := by
  refine ⟨rfl, ?_, List.take_left B _⟩
  show Xmodem.receiveRun ⟨1, 0, [], cap⟩
      (Xmodem.dataPackets 1 (Xmodem.chunkBlocks B) ++ [.EndOfTransmission]) = _
  have hacc := Xmodem.receiveRun_accept (Xmodem.chunkBlocks B) ⟨1, 0, [], cap⟩
    [.EndOfTransmission]
    (by dsimp only; rw [Xmodem.chunkBlocks_length]; omega)
  dsimp only at hacc
  rw [hacc]
  have hdone : Xmodem.receiverStep
      ⟨1 + (Xmodem.chunkBlocks B).length, 0 + 128 * (Xmodem.chunkBlocks B).length,
        [] ++ (Xmodem.chunkBlocks B).flatten, cap⟩ .EndOfTransmission
      = .done (0 + 128 * (Xmodem.chunkBlocks B).length)
          ([] ++ (Xmodem.chunkBlocks B).flatten) := rfl
  rw [Xmodem.receiveRun_cons_done _ _ _ _ _ hdone]
  rw [Xmodem.chunkBlocks_length, Xmodem.chunkBlocks_flatten]
  simp

/-- Witness for C1 (amended): the concrete source `[1, 2, 3]` with
capacity 128. -/
theorem Xmodem.lossless_roundtrip_witness :
    128 * Xmodem.numBlocks (List.length [(1 : Nat), 2, 3]) ≤ 128
    ∧ ((Xmodem.transmit [(1 : Nat), 2, 3]).2 = List.length [(1 : Nat), 2, 3]
      ∧ Xmodem.receiveRun ⟨1, 0, [], 128⟩ (Xmodem.transmit [(1 : Nat), 2, 3]).1
          = .ok (128 * Xmodem.numBlocks (List.length [(1 : Nat), 2, 3]),
              [1, 2, 3] ++ List.replicate
                (128 * Xmodem.numBlocks (List.length [(1 : Nat), 2, 3])
                  - List.length [(1 : Nat), 2, 3]) Xmodem.FILLER)
      ∧ ([1, 2, 3] ++ List.replicate
            (128 * Xmodem.numBlocks (List.length [(1 : Nat), 2, 3])
              - List.length [(1 : Nat), 2, 3]) Xmodem.FILLER).take
          (List.length [(1 : Nat), 2, 3]) = [1, 2, 3]) :=
  ⟨by decide, Xmodem.lossless_roundtrip [1, 2, 3] 128 (by decide)⟩

/-- C3: the receiver's `write_cursor` never exceeds the destination
capacity (every continuing step preserves the bound), and a source longer
than the capacity makes the lossless receive fail with
`DestinationExhausted` exactly at the first data block that would
overflow — block `cap / 128 + 1` — with the cursor still at
`128 * (cap / 128)`, the overflowing payload not copied, and the buffer
holding exactly the bytes of every previously accepted block. -/
theorem Xmodem.destination_overflow :
    (∀ (st st' : Xmodem.RecvState) (p : Xmodem.Packet) (r : Option Xmodem.Packet),
        Xmodem.receiverStep st p = .cont st' r →
        st.write_cursor ≤ st.cap → st'.write_cursor ≤ st.cap)
    ∧ (∀ (B : List Nat) (cap : Nat), cap < B.length →
        Xmodem.receiveRun ⟨1, 0, [], cap⟩ (Xmodem.transmit B).1
          = .error (.DestinationExhausted,
              ⟨cap / 128 + 1, 128 * (cap / 128), B.take (128 * (cap / 128)), cap⟩)) := by
  constructor
  · intro st st' p r h hc
    exact (Xmodem.receiverStep_cont_inv st st' p r h hc).2
  · intro B cap hlt
    have hjle : 128 * (cap / 128) ≤ cap := by omega
    have hjcap : cap < 128 * (cap / 128) + 128 := by omega
    have hlt' : cap / 128 < (Xmodem.chunkBlocks B).length := by
      rw [Xmodem.chunkBlocks_length]
      simp only [Xmodem.numBlocks]
      omega
    have htl : ((Xmodem.chunkBlocks B).take (cap / 128)).length = cap / 128 := by
      rw [List.length_take]
      omega
    obtain ⟨c, cs, hd⟩ : ∃ c cs, (Xmodem.chunkBlocks B).drop (cap / 128) = c :: cs := by
      cases hdn : (Xmodem.chunkBlocks B).drop (cap / 128) with
      | nil =>
          exfalso
          have := List.drop_eq_nil_iff.mp hdn
          omega
      | cons c cs => exact ⟨c, cs, rfl⟩
    show Xmodem.receiveRun ⟨1, 0, [], cap⟩
        (Xmodem.dataPackets 1 (Xmodem.chunkBlocks B) ++ [.EndOfTransmission]) = _
    conv_lhs =>
      rw [show Xmodem.chunkBlocks B
            = (Xmodem.chunkBlocks B).take (cap / 128)
              ++ (Xmodem.chunkBlocks B).drop (cap / 128) from
          (List.take_append_drop _ _).symm]
    rw [Xmodem.dataPackets_append, htl, List.append_assoc]
    have hacc := Xmodem.receiveRun_accept ((Xmodem.chunkBlocks B).take (cap / 128))
      ⟨1, 0, [], cap⟩
      (Xmodem.dataPackets (1 + cap / 128) ((Xmodem.chunkBlocks B).drop (cap / 128))
        ++ [.EndOfTransmission])
      (by dsimp only; rw [htl]; omega)
    dsimp only at hacc
    rw [htl] at hacc
    rw [hacc, hd]
    simp only [Xmodem.dataPackets, List.cons_append]
    have hstep : Xmodem.receiverStep
        ⟨1 + cap / 128, 0 + 128 * (cap / 128),
          [] ++ ((Xmodem.chunkBlocks B).take (cap / 128)).flatten, cap⟩
        (.Data ((1 + cap / 128) % 256) c)
        = .fail .DestinationExhausted
            ⟨1 + cap / 128, 0 + 128 * (cap / 128),
              [] ++ ((Xmodem.chunkBlocks B).take (cap / 128)).flatten, cap⟩ := by
      simp only [Xmodem.receiverStep]
      rw [if_pos trivial, if_neg (by omega : ¬(0 + 128 * (cap / 128) + 128 ≤ cap))]
    rw [Xmodem.receiveRun_cons_fail _ _ _ _ _ hstep]
    have hbuf : ((Xmodem.chunkBlocks B).take (cap / 128)).flatten
        = B.take (128 * (cap / 128)) := by
      rw [Xmodem.flatten_take_of_length _ _ (Xmodem.chunkBlocks_mem_length B),
        Xmodem.chunkBlocks_flatten,
        List.take_append_of_le_length (by omega : 128 * (cap / 128) ≤ B.length)]
    rw [hbuf]
    simp only [List.nil_append, Nat.zero_add]
    rw [Nat.add_comm 1 (cap / 128)]

/-- Witness for C3: a 129-byte source against a 128-byte capacity is cut
off with `DestinationExhausted` at the second block, the first block's
128 bytes intact. -/
theorem Xmodem.destination_overflow_witness :
    (128 : Nat) < (List.replicate 129 (5 : Nat)).length
    ∧ Xmodem.receiveRun ⟨1, 0, [], 128⟩ (Xmodem.transmit (List.replicate 129 5)).1
        = .error (.DestinationExhausted,
            ⟨128 / 128 + 1, 128 * (128 / 128),
              (List.replicate 129 (5 : Nat)).take (128 * (128 / 128)), 128⟩) :=
  ⟨by simp, Xmodem.destination_overflow.2 (List.replicate 129 5) 128 (by simp)⟩

/-- C5: a well-formed data block numbered `expected - 1` — a duplicate of
the last accepted block, sent because the receiver's earlier
`Acknowledge` was lost — is re-acknowledged, and the receiver stays in
the same state: `write_cursor`, the buffer contents and the expected
block number are all unchanged. -/
theorem Xmodem.duplicate_block_reack (st : Xmodem.RecvState) (num : Nat)
    (payload : List Nat) (hexp : 1 ≤ st.expected)
    (hnum : num = (st.expected - 1) % 256) (_hlen : payload.length = 128) :
    Xmodem.receiverStep st (.Data num payload) = .cont st (some .Acknowledge) := by
  subst hnum
  have hne : ¬ (st.expected - 1) % 256 = st.expected % 256 := by omega
  simp only [Xmodem.receiverStep]
  rw [if_neg hne, if_pos trivial]

/-- Witness for C5: the receiver expecting block 2 re-acknowledges a
duplicate of block 1 without touching cursor or buffer. -/
theorem Xmodem.duplicate_block_reack_witness :
    (1 ≤ (⟨2, 128, List.replicate 128 9, 256⟩ : Xmodem.RecvState).expected)
    ∧ Xmodem.receiverStep ⟨2, 128, List.replicate 128 9, 256⟩
        (.Data 1 (List.replicate 128 7))
        = .cont ⟨2, 128, List.replicate 128 9, 256⟩ (some .Acknowledge) :=
  ⟨by decide,
   Xmodem.duplicate_block_reack ⟨2, 128, List.replicate 128 9, 256⟩ 1
     (List.replicate 128 7) (by decide) (by decide) (by simp)⟩

/-- C4: timeouts and checksum failures share one per-block retry budget:
`on_timeout attempt_count` is `GiveUp` exactly when
`attempt_count ≥ max_retries_per_block`, `on_checksum_failure` is the
same decision, the default ceiling is 10, an acknowledgement resets the
attempt counter to 0, fewer than `max_retries_per_block` consecutive
failures on one block leave the sender retrying that block, and exactly
`max_retries_per_block` consecutive failures abort the sender with
`TooManyRetries`. -/
theorem Xmodem.retry_budget :
    (∀ (p : Xmodem.RetryPolicy) (a : Nat),
        Xmodem.on_timeout p a = .GiveUp ↔ p.max_retries_per_block ≤ a)
    ∧ (∀ (p : Xmodem.RetryPolicy) (a : Nat),
        Xmodem.on_checksum_failure p a = Xmodem.on_timeout p a)
    ∧ Xmodem.defaultPolicy.max_retries_per_block = 10
    ∧ (∀ (p : Xmodem.RetryPolicy) (n a : Nat),
        Xmodem.senderAckStep p (.AwaitingAck n a) .Ack = .AwaitingAck (n + 1) 0)
    ∧ (∀ (p : Xmodem.RetryPolicy) (n k : Nat), k < p.max_retries_per_block →
        Xmodem.senderFails p (.AwaitingAck n 0) k = .AwaitingAck n k)
    ∧ (∀ (p : Xmodem.RetryPolicy) (n : Nat), 1 ≤ p.max_retries_per_block →
        Xmodem.senderFails p (.AwaitingAck n 0) p.max_retries_per_block
          = .Aborted .TooManyRetries) := by
  refine ⟨?_, fun p a => rfl, rfl, fun p n a => rfl, ?_, ?_⟩
  · intro p a
    unfold Xmodem.on_timeout
    split_ifs with h
    · exact ⟨fun _ => h, fun _ => rfl⟩
    · exact ⟨fun hx => (nomatch hx), fun hx => absurd hx h⟩
  · intro p n k hk
    have hfa := Xmodem.senderFails_awaiting p n k 0 (by omega)
    simpa using hfa
  · intro p n h
    have hdec : p.max_retries_per_block = (p.max_retries_per_block - 1) + 1 := by omega
    rw [hdec, Xmodem.senderFails_add,
      Xmodem.senderFails_awaiting p n (p.max_retries_per_block - 1) 0 (by omega)]
    have hstep : Xmodem.senderAckStep p
        (.AwaitingAck n (0 + (p.max_retries_per_block - 1))) .Failure
        = .Aborted .TooManyRetries := by
      simp only [Xmodem.senderAckStep, Xmodem.on_timeout]
      rw [if_pos (by omega)]
    show Xmodem.senderFails p
        (Xmodem.senderAckStep p
          (.AwaitingAck n (0 + (p.max_retries_per_block - 1))) .Failure) 0 = _
    rw [hstep]
    rfl

/-- Witness for C4: with the default policy (ceiling 10), nine
consecutive failures on block 1 leave the sender still retrying with nine
attempts used, and ten consecutive failures abort with `TooManyRetries`. -/
theorem Xmodem.retry_budget_witness :
    (9 : Nat) < Xmodem.defaultPolicy.max_retries_per_block
    ∧ Xmodem.senderFails Xmodem.defaultPolicy (.AwaitingAck 1 0) 9 = .AwaitingAck 1 9
    ∧ (1 : Nat) ≤ Xmodem.defaultPolicy.max_retries_per_block
    ∧ Xmodem.senderFails Xmodem.defaultPolicy (.AwaitingAck 1 0)
        Xmodem.defaultPolicy.max_retries_per_block = .Aborted .TooManyRetries :=
  ⟨by decide,
   Xmodem.retry_budget.2.2.2.2.1 Xmodem.defaultPolicy 1 9 (by decide),
   by decide,
   Xmodem.retry_budget.2.2.2.2.2 Xmodem.defaultPolicy 1 (by decide)⟩

/-- C2 counterexample: the claim says a non-timeout, non-malformed-input
error — for example an underlying I/O failure such as `BrokenPipe` —
stops the boot loop; in `kmain` the wildcard arm `_ => {}` does nothing
and the loop continues, so the code retries instead of stopping. -/
theorem Boot.loop_stop_counterexample :
    Boot.bootStep (.error .BrokenPipe) = .retry
    ∧ Boot.BootAction.retry ≠ Boot.BootAction.stop := by
  exact ⟨rfl, by decide⟩

/-- C2 (amended): on success the boot loop jumps to `BINARY_START` and
never returns; on `TimedOut` or `InvalidData` it silently restarts the
handshake with a fresh session; and on every other error — including
`DestinationExhausted`-style and underlying-I/O errors — it also silently
restarts: the loop never stops on any error. -/
theorem Boot.loop_never_stops :
    (∀ k, Boot.bootStep (.ok k) = .jump Boot.BINARY_START_ADDR)
    ∧ Boot.bootStep (.error .TimedOut) = .retry
    ∧ Boot.bootStep (.error .InvalidData) = .retry
    ∧ (∀ e, Boot.bootStep (.error e) = .retry)
    ∧ (∀ r, Boot.bootStep r ≠ .stop) := by
  refine ⟨fun k => rfl, rfl, rfl, fun e => ?_, fun r => ?_⟩
  · cases e <;> rfl
  · cases r with
    | ok k => simp [Boot.bootStep]
    | error e => cases e <;> simp [Boot.bootStep]

/-- C9: every boot-loop iteration offers the receiver a destination of
exactly `MAX_BINARY_SIZE = 0x4000000 - 0x80000 = 0x3F80000` bytes and on
success jumps to the same start address `0x80000`; any successful receive
into that window reports at most `0x3F80000` bytes, so no larger image
can ever be accepted, whatever the sequence of retries. -/
theorem Boot.capacity_bound :
    Boot.MAX_BINARY_SIZE = 0x3F80000
    ∧ Boot.BINARY_START_ADDR = 0x80000
    ∧ (∀ k, Boot.bootStep (.ok k) = .jump Boot.BINARY_START_ADDR)
    ∧ (∀ (ps : List Xmodem.Packet) (n : Nat) (buf : List Nat),
        Xmodem.receiveRun ⟨1, 0, [], Boot.MAX_BINARY_SIZE⟩ ps = .ok (n, buf) →
        n ≤ 0x3F80000) := by
  refine ⟨rfl, rfl, fun k => rfl, ?_⟩
  intro ps n buf h
  exact Xmodem.receiveRun_ok_le ps ⟨1, 0, [], Boot.MAX_BINARY_SIZE⟩ n buf
    (Nat.zero_le _) h

/-- Witness for C9: an immediate `EndOfTransmission` completes a receive
into the boot window with 0 bytes, within the bound. -/
theorem Boot.capacity_bound_witness :
    Xmodem.receiveRun ⟨1, 0, [], Boot.MAX_BINARY_SIZE⟩ [.EndOfTransmission]
      = .ok (0, [])
    ∧ (0 : Nat) ≤ 0x3F80000 :=
  ⟨rfl, Boot.capacity_bound.2.2.2 [.EndOfTransmission] 0 [] rfl⟩

theorem Ttywrite.progress_fn_bytes (st : Ttywrite.ProgressState) (now : Nat)
    (p : Ttywrite.Progress) :
    (Ttywrite.progress_fn st now p).1.BYTES_SENT = st.BYTES_SENT + 128 := by
  cases h : st.LAST_TIME <;> simp [Ttywrite.progress_fn, h]

theorem Ttywrite.progressIter_bytes :
    ∀ (ts : List Nat) (st : Ttywrite.ProgressState),
      (Ttywrite.progressIter st ts).BYTES_SENT = st.BYTES_SENT + 128 * ts.length := by
  intro ts
  induction ts with
  | nil => intro st; simp [Ttywrite.progressIter]
  | cons t ts ih =>
      intro st
      show (Ttywrite.progressIter (Ttywrite.progress_fn st t .Started).1 ts).BYTES_SENT = _
      rw [ih, Ttywrite.progress_fn_bytes]
      simp only [List.length_cons]
      omega

/-- C7 counterexample: two invocations of `progress_fn` with the
identical notification argument `Progress.Started` produce different
reports — `none` from the initial static state, `some 256` after the
statics already hold an earlier instant and 128 counted bytes — so the
report sequence is not a function of the notification arguments alone,
and the reporting state is process-wide, not a `ProgressSink` value
passed into the session. -/
theorem Ttywrite.progress_static_counterexample :
    (Ttywrite.progress_fn ⟨none, 0⟩ 5 .Started).2 = none
    ∧ (Ttywrite.progress_fn ⟨some 0, 128⟩ 5 .Started).2 = some 256
    ∧ (none : Option Nat) ≠ some 256 :=
  ⟨rfl, rfl, by decide⟩

/-- C7 (amended): `ttywrite`'s progress reporting runs through the
process-wide `static mut` counters `LAST_TIME` and `BYTES_SENT`: the
notification argument is ignored entirely (any two arguments yield the
same result), every invocation adds exactly 128 to the static byte
counter, and the report of an invocation is a function of the static
state alone — `none` on the first call of the process, the updated
counter afterwards. -/
theorem Ttywrite.progress_via_statics :
    (∀ (st : Ttywrite.ProgressState) (now : Nat) (p q : Ttywrite.Progress),
        Ttywrite.progress_fn st now p = Ttywrite.progress_fn st now q)
    ∧ (∀ (st : Ttywrite.ProgressState) (now : Nat) (p : Ttywrite.Progress),
        (Ttywrite.progress_fn st now p).1.BYTES_SENT = st.BYTES_SENT + 128)
    ∧ (∀ (st : Ttywrite.ProgressState) (now : Nat) (p : Ttywrite.Progress),
        (Ttywrite.progress_fn st now p).2
          = if st.LAST_TIME.isSome then some (st.BYTES_SENT + 128) else none) := by
  refine ⟨fun st now p q => rfl, Ttywrite.progress_fn_bytes, ?_⟩
  intro st now p
  cases h : st.LAST_TIME <;> simp [Ttywrite.progress_fn, h]

/-- C8: every invocation of the progress callback adds exactly 128 to the
cumulative byte counter whatever the notification says, so after any
sequence of invocations the counter reads `128 × (number of invocations)`
— always a multiple of 128 — and with one invocation per acknowledged
block (`⌈len/128⌉` blocks) the reported total strictly exceeds the true
source length whenever that length is not a multiple of 128. -/
theorem Ttywrite.progress_overcounts :
    (∀ (st : Ttywrite.ProgressState) (now : Nat) (p : Ttywrite.Progress),
        (Ttywrite.progress_fn st now p).1.BYTES_SENT = st.BYTES_SENT + 128)
    ∧ (∀ ts : List Nat,
        (Ttywrite.progressIter ⟨none, 0⟩ ts).BYTES_SENT = 128 * ts.length)
    ∧ (∀ ts : List Nat,
        (Ttywrite.progressIter ⟨none, 0⟩ ts).BYTES_SENT % 128 = 0)
    ∧ (∀ (B : List Nat) (ts : List Nat),
        ts.length = (Xmodem.chunkBlocks B).length →
        B.length % 128 ≠ 0 →
        B.length < (Ttywrite.progressIter ⟨none, 0⟩ ts).BYTES_SENT) := by
  have hiter : ∀ ts : List Nat,
      (Ttywrite.progressIter ⟨none, 0⟩ ts).BYTES_SENT = 128 * ts.length := by
    intro ts
    rw [Ttywrite.progressIter_bytes]
    show (0 : Nat) + 128 * ts.length = 128 * ts.length
    omega
  refine ⟨Ttywrite.progress_fn_bytes, hiter, ?_, ?_⟩
  · intro ts
    rw [hiter]
    simp [Nat.mul_mod_right]
  · intro B ts hts hmod
    rw [hiter, hts, Xmodem.chunkBlocks_length]
    simp only [Xmodem.numBlocks]
    omega

/-- Witness for C8: a one-byte source goes out as one block, one callback
invocation, and the counter reads 128, strictly more than the single true
byte. -/
theorem Ttywrite.progress_overcounts_witness :
    List.length [(0 : Nat)] = (Xmodem.chunkBlocks [(1 : Nat)]).length
    ∧ (List.length [(1 : Nat)]) % 128 ≠ 0
    ∧ List.length [(1 : Nat)]
        < (Ttywrite.progressIter ⟨none, 0⟩ [0]).BYTES_SENT :=
  ⟨by decide, by decide,
   Ttywrite.progress_overcounts.2.2.2 [1] [0] (by decide) (by decide)⟩

/-- C10: the code contradicts its own contract at the saturation
boundary: `align_up` computes `addr.saturating_add(align - 1)` before
masking, so at `addr = usize::MAX = 2^64 - 1` with `align = 2` it returns
`2^64 - 2`, which is strictly below `addr` — while the function's own doc
comment and the claim require the result to be the least aligned value
`>= addr`.  `align_down` at the same point correctly returns the greatest
aligned value `<= addr`, also `2^64 - 2`. -/
theorem AllocUtil.align_up_saturation_bug :
    AllocUtil.align_up (2 ^ 64 - 1) 2 = some (2 ^ 64 - 2)
    ∧ 2 ^ 64 - 2 < 2 ^ 64 - 1
    ∧ AllocUtil.align_down (2 ^ 64 - 1) 2 = some (2 ^ 64 - 2) := by
  refine ⟨?_, by norm_num, ?_⟩ <;> decide
